import Mathlib

/-!
# Verification of the Travel Guide application core logic

Shallow embedding of the original logic of `main.py` (a Streamlit + OpenAI
travel-itinerary app): the prompt builder (`build_user_prompt`, including the
semantics of `textwrap.dedent` and `str.strip`), the model fallback loop
(`get_plan_markdown`), the tolerant response-text extractor
(`_extract_text_from_chat_completion`), the Markdown-subset formatter
(`markdown_to_flowables`), and the session-state handlers
(`init_form_state`, `reset_all_callback`, the submit handler and the
output-rendering/PDF-export block).

Strings are modelled as `List Char` in the helper layer; Python's
whitespace-sensitive primitives (`str.strip`, `str.rstrip`, `str.lstrip`,
`str.splitlines`, `'\n'.join`, `textwrap.dedent`) are embedded explicitly.
-/

namespace TravelGuide

/-! ## Python string primitives -/

/-- The character class recognised by Python's `str.strip()` / `str.isspace()`
(Unicode whitespace as used by CPython for `str`). -/
def pyIsWSpace (c : Char) : Bool :=
  c = ' ' || c = '\t' || c = '\n' || c = '\r' || c = '\x0b' || c = '\x0c' ||
  c = '\x1c' || c = '\x1d' || c = '\x1e' || c = '\x1f' || c = '\x85' || c = '\xa0' ||
  c = ' ' || c = ' ' || c = ' ' || c = ' ' || c = ' ' ||
  c = ' ' || c = ' ' || c = ' ' || c = ' ' || c = ' ' ||
  c = ' ' || c = ' ' || c = ' ' || c = ' ' || c = ' ' ||
  c = ' ' || c = '　'

/-- Python `str.lstrip()` on a character list. -/
def pyLstripL (l : List Char) : List Char := l.dropWhile pyIsWSpace

/-- Python `str.rstrip()` on a character list. -/
def pyRstripL (l : List Char) : List Char := (l.reverse.dropWhile pyIsWSpace).reverse

/-- Python `str.strip()` on a character list. -/
def pyStripL (l : List Char) : List Char := pyLstripL (pyRstripL l)

/-- Line-boundary characters of Python `str.splitlines()` (besides the
two-character boundary `"\r\n"`, which is handled separately). -/
def pyIsLineBreak (c : Char) : Bool :=
  c = '\n' || c = '\r' || c = '\x0b' || c = '\x0c' || c = '\x1c' || c = '\x1d' ||
  c = '\x1e' || c = '\x85' || c = ' ' || c = ' '

/-- Python `str.splitlines()` on a character list: splits at every line
boundary, treats `"\r\n"` as a single boundary, and produces no final empty
line for a trailing boundary (`"".splitlines() = []`, `"a\n".splitlines() =
["a"]`). -/
def pySplitlines : List Char → List (List Char)
  | [] => []
  | '\r' :: '\n' :: rest => [] :: pySplitlines rest
  | c :: rest =>
    if pyIsLineBreak c then [] :: pySplitlines rest
    else
      match pySplitlines rest with
      | [] => [[c]]
      | l :: ls => (c :: l) :: ls

/-! ## Document formatter: `markdown_to_flowables`

The source walks the `splitlines` result with an index `i`; a bullet run is an
inner `while` that consumes every consecutive line whose left-stripped form
starts with one of `-`, `*`, `•`, and the first non-matching line is
re-processed by the outer loop (`continue`).  This is embedded as a
single-pass automaton over the line list whose state is `none` (normal) or
`some items` (inside a bullet run); the classification of a line in the
normal state and the flush-then-reclassify on leaving a run reproduce the
outer loop body exactly. -/

/-- Paragraph styles used by the source (`BodyText`, `H2`, `H3`). -/
inductive PStyle where
  | body
  | h2
  | h3
deriving DecidableEq, Repr

/-- ReportLab flowables produced by `markdown_to_flowables`: paragraphs with a
style, spacers (with the source's width/height arguments), and unordered
lists, modelled by their ordered item texts. -/
inductive Flowable where
  | Paragraph (text : String) (style : PStyle)
  | Spacer (width height : Nat)
  | ListFlowable (items : List String)
deriving DecidableEq, Repr

/-- The check `line.lstrip().startswith(("-", "*", "•"))`. -/
def isBulletL (l : List Char) : Bool :=
  match pyLstripL l with
  | c :: _ => c = '-' || c = '*' || c = '•'
  | [] => false

/-- The text of one bullet item: `lines[i].lstrip()[1:].strip()`. -/
def bulletItemText (l : List Char) : String :=
  (pyStripL ((pyLstripL l).drop 1)).asString

/-- One iteration of the outer loop body on line `l` in the normal state:
the emitted flowables, and `some items` when the line opens a bullet run. -/
def classifyLine (l : List Char) : List Flowable × Option (List String) :=
  let line := pyRstripL l
  if pyStripL line = [] then ([Flowable.Spacer 1 6], none)
  else if "## ".toList.isPrefixOf line then
    ([Flowable.Paragraph (pyStripL (line.drop 3)).asString PStyle.h2], none)
  else if "### ".toList.isPrefixOf line then
    ([Flowable.Paragraph (pyStripL (line.drop 4)).asString PStyle.h3], none)
  else if isBulletL line then ([], some [bulletItemText l])
  else ([Flowable.Paragraph line.asString PStyle.body], none)

/-- The loop of `markdown_to_flowables` over the line list.  In state
`some items` the inner `while` condition `lines[i].lstrip().startswith(...)`
is checked on the original (un-rstripped) line, exactly as in the source;
leaving the run emits the `ListFlowable` and its trailing `Spacer(1, 4)` and
re-processes the current line. -/
def mdRun : List (List Char) → Option (List String) → List Flowable
  | [], none => []
  | [], some items => [Flowable.ListFlowable items, Flowable.Spacer 1 4]
  | l :: rest, none =>
    match classifyLine l with
    | (out, mode) => out ++ mdRun rest mode
  | l :: rest, some items =>
    if isBulletL l then mdRun rest (some (items ++ [bulletItemText l]))
    else
      Flowable.ListFlowable items :: Flowable.Spacer 1 4 ::
        (match classifyLine l with
         | (out, mode) => out ++ mdRun rest mode)

/-- The function `markdown_to_flowables(md_text, styles)` (the `styles` argument only
selects fixed style objects and is dropped). -/
def markdown_to_flowables (md_text : String) : List Flowable :=
  mdRun (pySplitlines md_text.toList) none

/-- Spec-level `DocumentElement` (§3 of the specification): the abstraction
of a flowable that the spec's properties are stated against. -/
inductive DocumentElement where
  | Heading (level : Nat) (text : String)
  | Paragraph (text : String)
  | BulletGroup (items : List String)
  | Spacer
deriving DecidableEq, Repr

/-- Abstraction from concrete flowables to spec-level document elements. -/
def toElement : Flowable → DocumentElement
  | Flowable.Paragraph t PStyle.h2 => DocumentElement.Heading 2 t
  | Flowable.Paragraph t PStyle.h3 => DocumentElement.Heading 3 t
  | Flowable.Paragraph t PStyle.body => DocumentElement.Paragraph t
  | Flowable.Spacer _ _ => DocumentElement.Spacer
  | Flowable.ListFlowable items => DocumentElement.BulletGroup items

/-! ## `textwrap.dedent` and the prompt builder

`build_user_prompt` returns `dedent(f"...").strip()`.  `textwrap.dedent`
operates on the already-interpolated string: it splits on `'\n'`,
normalises lines consisting solely of spaces/tabs to empty lines, computes
the longest common space/tab margin of the remaining lines, and removes that
margin from the start of every line that carries it. -/

/-- The `[ \t]` character class of `textwrap.dedent`'s regexes. -/
def isIndentChar (c : Char) : Bool := c = ' ' || c = '\t'

/-- The decomposition `text.split('\n')` (the line decomposition both dedent regexes work on,
via `re.MULTILINE` anchors). -/
def splitNL : List Char → List (List Char)
  | [] => [[]]
  | '\n' :: rest => [] :: splitNL rest
  | c :: rest =>
    match splitNL rest with
    | [] => [[c]]
    | l :: ls => (c :: l) :: ls

/-- The join `'\n'.join(lines)`. -/
def joinNL : List (List Char) → List Char
  | [] => []
  | [l] => l
  | l :: l₂ :: ls => l ++ '\n' :: joinNL (l₂ :: ls)

/-- The substitution `_whitespace_only_re.sub('', text)` on one line: a nonempty line made
only of spaces/tabs becomes empty. -/
def normWSLine (l : List Char) : List Char :=
  if !l.isEmpty && l.all isIndentChar then [] else l

/-- The regex `_leading_whitespace_re` on one line: the leading space/tab run of a
line that has any further character. -/
def lineIndent (l : List Char) : Option (List Char) :=
  if l.dropWhile isIndentChar = [] then none else some (l.takeWhile isIndentChar)

/-- The character-wise common prefix used by dedent's margin loop. -/
def commonPfx : List Char → List Char → List Char
  | x :: xs, y :: ys => if x = y then x :: commonPfx xs ys else []
  | _, _ => []

/-- dedent's margin fold over the collected indents. -/
def marginFold : Option (List Char) → List (List Char) → Option (List Char)
  | m, [] => m
  | none, ind :: rest => marginFold (some ind) rest
  | some m, ind :: rest =>
    if m.isPrefixOf ind then marginFold (some m) rest
    else if ind.isPrefixOf m then marginFold (some ind) rest
    else marginFold (some (commonPfx m ind)) rest

/-- The substitution `re.sub(margin-anchored-at-line-start, '', text)` on one line. -/
def removeMargin (m : List Char) (l : List Char) : List Char :=
  if m.isPrefixOf l then l.drop m.length else l

/-- The body of `textwrap.dedent` on a decomposed line list (the whitespace-only-line
normalisation happens before the margin is computed and removed). -/
def dedentLines (lines : List (List Char)) : List (List Char) :=
  match marginFold none ((lines.map normWSLine).filterMap lineIndent) with
  | none => lines.map normWSLine
  | some m =>
    if m = [] then lines.map normWSLine
    else (lines.map normWSLine).map (removeMargin m)

/-- The function `textwrap.dedent(text)`. -/
def dedentL (s : List Char) : List Char := joinNL (dedentLines (splitNL s))

/-- The substitutions `interests or "No special interests provided"` and `guardrails or "None"`:
Python's `or` substitutes the placeholder exactly when the string is empty. -/
def orElseStr (s : String) (placeholder : String) : List Char :=
  if s = "" then placeholder.toList else s.toList

/-- The interpolated f-string body of `build_user_prompt` (before `dedent`
and `strip`). -/
def fstring (d ns i' g' : List Char) : List Char :=
  "\n    TRIP INPUTS\n    - Destination: ".toList ++
  (d ++ ("\n    - Number of days: ".toList ++
  (ns ++ ("\n    - Special interests: ".toList ++
  (i' ++ ("\n    - Guardrails / constraints: ".toList ++
  (g' ++ ("\n\n    REQUIREMENTS\n    - Create a complete plan for all ".toList ++
  (ns ++ (" days.\n    - Divide each day into Morning / Afternoon / Evening.\n    - For each activity, give a short reason why it fits the interests.\n    - Make sure every item respects the guardrails.\n    - Keep it readable (around 800–1400 words depending on trip length).\n    ".toList))))))))))

/-- The function `build_user_prompt(destination, num_days, interests, guardrails)`. -/
def build_user_prompt (destination : String) (num_days : Int)
    (interests guardrails : String) : String :=
  (pyStripL (dedentL (fstring destination.toList (toString num_days).toList
    (orElseStr interests "No special interests provided")
    (orElseStr guardrails "None")))).asString

/-! ## Model responses and text extraction -/

/-- Opaque usage-accounting record attached by the OpenAI client
(`comp.usage`); only its presence matters to the program. -/
structure Usage where
  tokens : Nat
deriving DecidableEq, Repr

/-- One fragment of a list-shaped message content: a plain string, a dict
whose `"text"` entry is a string, or anything else (skipped). -/
inductive Fragment where
  | fstr (s : String)
  | fdictText (s : String)
  | fother
deriving DecidableEq, Repr

/-- The shape of `comp.choices[0].message.content`: a plain string, a list of
fragments, or any other shape (including a missing/`None` message, whose
access raises and is caught). -/
inductive Content where
  | cstr (s : String)
  | clist (ps : List Fragment)
  | cother
deriving DecidableEq, Repr

/-- A chat completion as far as the program inspects it: the content of each
choice, and the optional `usage` attribute. -/
structure Completion where
  choices : List Content
  usage : Option Usage
deriving DecidableEq, Repr

/-- The extractable text of one fragment (`isinstance(p, str)` /
`isinstance(p, dict) and isinstance(p.get("text"), str)`). -/
def fragText : Fragment → Option String
  | Fragment.fstr s => some s
  | Fragment.fdictText s => some s
  | Fragment.fother => none

/-- The function `_extract_text_from_chat_completion(comp)`: the `try` block reads
`comp.choices[0].message.content`; a string that is non-empty after stripping
is returned as-is; a list is flattened to its extractable fragment texts
joined by newlines and stripped; every other shape, and any exception
(e.g. `choices` empty), yields `""`. -/
def _extract_text_from_chat_completion (comp : Completion) : String :=
  match comp.choices.head? with
  | none => ""
  | some (Content.cstr s) => if pyStripL s.toList ≠ [] then s else ""
  | some (Content.clist ps) =>
    let parts := ps.filterMap fragText
    let joined := pyStripL (joinNL (parts.map String.toList))
    if joined ≠ [] then joined.asString else ""
  | some Content.cother => ""

/-! ## The fallback chain -/

/-- The constant `FALLBACK_MODELS`. -/
def FALLBACK_MODELS : List String := ["gpt-5", "gpt-5-mini", "gpt-4.1"]

/-- The `SYSTEM_PROMPT` constant (`dedent("""...""").strip()`; the literal is
flush-left, so dedent leaves it unchanged and strip removes the surrounding
newlines). -/
def SYSTEM_PROMPT : String :=
  (pyStripL (dedentL ("\nYou are a precise travel planner.\nRules:\n- You MUST respect the user’s guardrails. If something conflicts, replace it with an alternative.\n- Do not include unsafe or illegal activities.\n- Provide practical details: timing blocks (morning/afternoon/evening), transit style (car/public transit/short rides),\n  and a short reason why each stop matches the interests.\n- Keep it realistic for the number of days.\n- Avoid excessive walking if user says no walking tours.\n- If user says wheelchair accessible or kid-friendly, ensure every suggestion matches.\nOutput format MUST be Markdown with these sections:\n## Trip Summary\n## Day-by-Day Plan\n(Use H3 headings like: ### Day 1, ### Day 2, etc.)\n## Food Suggestions\n## Tips & Notes\n").toList)).asString

/-- The message list sent with every attempt. -/
def mkMessages (user_prompt : String) : List (String × String) :=
  [("system", SYSTEM_PROMPT), ("user", user_prompt)]

/-- What one call of the external completion collaborator
(`client.chat.completions.create`) does for a given model and message list:
either it raises (any exception, carried as an opaque message) or it returns
a completion. -/
inductive AttemptOutcome where
  | raises (e : String)
  | completes (comp : Completion)

/-- The external model-invocation collaborator, abstracted: the outcome of
one API call per (model identifier, message list). -/
def ModelOracle := String → List (String × String) → AttemptOutcome

/-- The `last_error` recorded during the loop: either a raised exception or
the synthesized `RuntimeError(f"Model '{model_name}' returned empty
content.")`. -/
inductive LastError where
  | exc (e : String)
  | emptyContent (model : String)
deriving DecidableEq, Repr

/-- Result of the fallback loop: the returned text with the recorded model
and usage, or the final `RuntimeError` carrying the last per-attempt error. -/
inductive FetchResult where
  | ok (text : String) (modelUsed : String) (usage : Option Usage)
  | allFailed (lastError : Option LastError)
deriving DecidableEq, Repr

/-- Did the attempt for `m` fail (raise, or yield empty/whitespace-only
extracted text)? -/
def attemptFailed (oracle : ModelOracle) (msgs : List (String × String))
    (m : String) : Bool :=
  match oracle m msgs with
  | AttemptOutcome.raises _ => true
  | AttemptOutcome.completes comp =>
    (pyStripL (_extract_text_from_chat_completion comp).toList).isEmpty

/-- The error recorded for a failed attempt for `m`. -/
def attemptError (oracle : ModelOracle) (msgs : List (String × String))
    (m : String) : LastError :=
  match oracle m msgs with
  | AttemptOutcome.raises e => LastError.exc e
  | AttemptOutcome.completes _ => LastError.emptyContent m

/-- The `for model_name in FALLBACK_MODELS` loop of `get_plan_markdown`,
threading `last_error`; returns the result together with the list of model
identifiers actually invoked, in order. -/
def runChain (oracle : ModelOracle) (msgs : List (String × String)) :
    List String → Option LastError → FetchResult × List String
  | [], le => (FetchResult.allFailed le, [])
  | m :: rest, _le =>
    match oracle m msgs with
    | AttemptOutcome.raises e =>
      let r := runChain oracle msgs rest (some (LastError.exc e))
      (r.1, m :: r.2)
    | AttemptOutcome.completes comp =>
      let text := _extract_text_from_chat_completion comp
      if pyStripL text.toList ≠ [] then (FetchResult.ok text m comp.usage, [m])
      else
        let r := runChain oracle msgs rest (some (LastError.emptyContent m))
        (r.1, m :: r.2)

/-! ## Session state -/

/-- The `st.session_state` keys the program touches.  Each field is `none`
when the key is absent from the underlying dict. -/
structure SessionState where
  destination : Option String
  num_days : Option Int
  interests : Option String
  guardrails : Option String
  plan_md : Option String
  last_model_used : Option String
  last_usage : Option (Option Usage)
deriving DecidableEq, Repr

/-- The empty session (no keys set; the state before the first script run). -/
def emptySession : SessionState :=
  { destination := none, num_days := none, interests := none, guardrails := none,
    plan_md := none, last_model_used := none, last_usage := none }

/-- The callback `init_form_state()`: `setdefault` of each form key and `plan_md`. -/
def init_form_state (s : SessionState) : SessionState :=
  { s with
    destination := some (s.destination.getD ""),
    num_days := some (s.num_days.getD 3),
    interests := some (s.interests.getD ""),
    guardrails := some (s.guardrails.getD ""),
    plan_md := some (s.plan_md.getD "") }

/-- The callback `reset_all_callback()`: assigns the five form/plan keys and pops
`last_model_used` and `last_usage`. -/
def reset_all_callback (s : SessionState) : SessionState :=
  { s with
    destination := some "",
    num_days := some 3,
    interests := some "",
    guardrails := some "",
    plan_md := some "",
    last_model_used := none,
    last_usage := none }

/-- The function `get_plan_markdown(user_prompt)` including its session-state effect: on
the first attempt with non-empty extracted text it records
`last_model_used` and `last_usage` and returns the text; on exhaustion it
raises, leaving the session untouched.  Also returns the invoked models. -/
def get_plan_markdown (oracle : ModelOracle) (user_prompt : String)
    (s : SessionState) : SessionState × FetchResult × List String :=
  match runChain oracle (mkMessages user_prompt) FALLBACK_MODELS none with
  | (FetchResult.ok text m u, inv) =>
    ({ s with last_model_used := some m, last_usage := some u },
     FetchResult.ok text m u, inv)
  | (FetchResult.allFailed le, inv) => (s, FetchResult.allFailed le, inv)

/-- The `if submitted:` block: empty destination only warns; otherwise the
prompt is built and `st.session_state["plan_md"]` is assigned the fetched
text.  If the fetch raises, the assignment does not happen and the exception
propagates (second component `true`). -/
def submit_handler (oracle : ModelOracle) (s : SessionState) :
    SessionState × Bool :=
  if s.destination.getD "" = "" then (s, false)
  else
    match get_plan_markdown oracle
      (build_user_prompt (s.destination.getD "") (s.num_days.getD 3)
        (s.interests.getD "") (s.guardrails.getD "")) s with
    | (s', FetchResult.ok text _ _, _) => ({ s' with plan_md := some text }, false)
    | (s', FetchResult.allFailed _, _) => (s', true)

/-! ## Output rendering and PDF export -/

/-- Outcome of the `try: write_pdf(...)` block. -/
inductive ExportOutcome where
  | exported (story : List Flowable)
  | exportError
deriving DecidableEq, Repr

/-- Result of the output-rendering block. -/
structure RenderResult where
  state : SessionState
  displayedPlan : Option String
  exportResult : Option ExportOutcome
deriving DecidableEq, Repr

/-- The module-level output block: when the stored plan text is non-blank it
is displayed and a PDF export is attempted inside `try/except`; the block
performs no session-state writes in either case.  `exportRaises` abstracts
whether the export collaborator raises. -/
def render_output_block (s : SessionState) (exportRaises : Bool) : RenderResult :=
  if pyStripL (s.plan_md.getD "").toList ≠ [] then
    { state := s,
      displayedPlan := some (s.plan_md.getD ""),
      exportResult := some (if exportRaises then ExportOutcome.exportError
        else ExportOutcome.exported (markdown_to_flowables (s.plan_md.getD ""))) }
  else { state := s, displayedPlan := none, exportResult := none }

/-- A collaborator for the C1 witness: `gpt-5` raises, every later model
returns a plain-string completion `"PLAN"` with usage attached. -/
def c1Oracle : ModelOracle := fun m _ =>
  if m = "gpt-5" then AttemptOutcome.raises "boom"
  else AttemptOutcome.completes ⟨[Content.cstr "PLAN"], some ⟨7⟩⟩

/-- A collaborator for the C2 witness: the last model returns
whitespace-only content, the others raise. -/
def c2Oracle : ModelOracle := fun m _ =>
  if m = "gpt-4.1" then AttemptOutcome.completes ⟨[Content.cstr "  "], none⟩
  else AttemptOutcome.raises "down"

/-- A collaborator for the C10 witness: every call raises. -/
def c10Oracle : ModelOracle := fun _ _ => AttemptOutcome.raises "net down"

/-- A run of `n` spaces. -/
def spL (n : Nat) : List Char := List.replicate n ' '

/-! ### The fixed template lines -/

def dLine1 : List Char := "TRIP INPUTS".toList
def dDest : List Char := "- Destination: ".toList
def dNum : List Char := "- Number of days: ".toList
def dInt : List Char := "- Special interests: ".toList
def dGua : List Char := "- Guardrails / constraints: ".toList
def dReq : List Char := "REQUIREMENTS".toList
def dCre : List Char := "- Create a complete plan for all ".toList
def dDays : List Char := " days.".toList
def dDiv : List Char := "- Divide each day into Morning / Afternoon / Evening.".toList
def dFor : List Char := "- For each activity, give a short reason why it fits the interests.".toList
def dMak : List Char := "- Make sure every item respects the guardrails.".toList
def dKee : List Char := "- Keep it readable (around 800–1400 words depending on trip length).".toList


set_option maxRecDepth 8192


/-! ## Basic lemmas about the primitives -/

theorem dropWhile_append_of_ne_nil {p : Char → Bool} {l₁ l₂ : List Char}
    (h : l₁.dropWhile p ≠ []) :
    (l₁ ++ l₂).dropWhile p = l₁.dropWhile p ++ l₂ := by
  induction l₁ with
  | nil => exact absurd rfl h
  | cons c t ih =>
    by_cases hc : p c
    · simp only [List.cons_append, List.dropWhile_cons, hc, if_true] at *
      exact ih h
    · simp [List.dropWhile_cons, hc]

theorem dropWhile_ne_nil_of_mem {p : Char → Bool} {c : Char} {l : List Char}
    (hm : c ∈ l) (hp : p c = false) : l.dropWhile p ≠ [] := by
  induction l with
  | nil => cases hm
  | cons a t ih =>
    by_cases ha : p a
    · simp only [List.dropWhile_cons, ha, if_true]
      rcases List.mem_cons.mp hm with rfl | hmt
      · rw [hp] at ha; cases ha
      · exact ih hmt
    · simp [List.dropWhile_cons, ha]

theorem dropWhile_dropWhile (p : Char → Bool) (l : List Char) :
    (l.dropWhile p).dropWhile p = l.dropWhile p := by
  induction l with
  | nil => rfl
  | cons c t ih =>
    by_cases hc : p c
    · simp [List.dropWhile_cons, hc, ih]
    · simp [List.dropWhile_cons, hc]

theorem pyRstripL_idem (l : List Char) : pyRstripL (pyRstripL l) = pyRstripL l := by
  unfold pyRstripL
  rw [List.reverse_reverse, dropWhile_dropWhile]

theorem pyStripL_rstrip (l : List Char) : pyStripL (pyRstripL l) = pyStripL l := by
  unfold pyStripL
  rw [pyRstripL_idem]

/-- If `u` and `v` each contain a non-whitespace character then stripping
`u ++ (x ++ v)` keeps the middle block `x` intact (as an infix). -/
theorem strip_infix_of_decomp (u x v : List Char) (c₁ c₂ : Char)
    (h₁ : c₁ ∈ u) (hw₁ : pyIsWSpace c₁ = false)
    (h₂ : c₂ ∈ v) (hw₂ : pyIsWSpace c₂ = false) :
    x <:+: pyStripL (u ++ (x ++ v)) := by
  have hrev : (u ++ (x ++ v)).reverse = v.reverse ++ (x.reverse ++ u.reverse) := by
    simp [List.reverse_append]
  have hvne : v.reverse.dropWhile pyIsWSpace ≠ [] :=
    dropWhile_ne_nil_of_mem (List.mem_reverse.mpr h₂) hw₂
  have hune : u.dropWhile pyIsWSpace ≠ [] := dropWhile_ne_nil_of_mem h₁ hw₁
  have h1 : pyRstripL (u ++ (x ++ v)) =
      u ++ (x ++ (v.reverse.dropWhile pyIsWSpace).reverse) := by
    unfold pyRstripL
    rw [hrev, dropWhile_append_of_ne_nil hvne]
    simp [List.reverse_append]
  have h2 : pyStripL (u ++ (x ++ v)) =
      u.dropWhile pyIsWSpace ++ (x ++ (v.reverse.dropWhile pyIsWSpace).reverse) := by
    unfold pyStripL pyLstripL
    rw [h1, dropWhile_append_of_ne_nil hune]
  exact ⟨u.dropWhile pyIsWSpace, (v.reverse.dropWhile pyIsWSpace).reverse, by
    rw [h2, List.append_assoc]⟩

/-! ### Formatter lemmas -/

theorem mdRun_blank_lines (ls : List (List Char)) (h : ∀ l ∈ ls, pyStripL l = []) :
    mdRun ls none = List.replicate ls.length (Flowable.Spacer 1 6) := by
  induction ls with
  | nil => rfl
  | cons l rest ih =>
    have hl : pyStripL (pyRstripL l) = [] := by
      rw [pyStripL_rstrip]
      exact h l (List.mem_cons_self l rest)
    simp only [mdRun, classifyLine, hl, if_pos rfl, List.length_cons,
      List.replicate_succ, List.singleton_append]
    exact congrArg _ (ih fun x hx => h x (List.mem_cons_of_mem l hx))

theorem mdRun_paragraph_step (l : List Char) (rest : List (List Char))
    (h1 : pyStripL (pyRstripL l) ≠ [])
    (h2 : ¬ ("## ".toList <+: pyRstripL l))
    (h3 : ¬ ("### ".toList <+: pyRstripL l))
    (h4 : isBulletL (pyRstripL l) = false) :
    mdRun (l :: rest) none =
      Flowable.Paragraph (pyRstripL l).asString PStyle.body :: mdRun rest none := by
  have h2' : ¬ (['#', '#', ' '] <+: pyRstripL l) := h2
  have h3' : ¬ (['#', '#', '#', ' '] <+: pyRstripL l) := h3
  simp [mdRun, classifyLine, h1, h2', h3', h4]

/-! ### Claim C3: concrete structure of the two specified parses -/

/-- C3: `markdown_to_flowables` maps `"## A\n### B\n- x\n- y\n\ntext"` to
exactly [Heading(2,"A"), Heading(3,"B"), BulletGroup(["x","y"]), Spacer,
Spacer, Paragraph("text")], and `"- a\n- b\nplain\n- c"` to exactly
[BulletGroup(["a","b"]), Spacer, Paragraph("plain"), BulletGroup(["c"]),
Spacer]: each bullet run emits one trailing spacer of its own, and the first
non-bullet line after a run is reprocessed normally rather than consumed. -/
theorem markdown_to_flowables_c3_structure :
    (markdown_to_flowables "## A\n### B\n- x\n- y\n\ntext").map toElement =
      [DocumentElement.Heading 2 "A", DocumentElement.Heading 3 "B",
       DocumentElement.BulletGroup ["x", "y"], DocumentElement.Spacer,
       DocumentElement.Spacer, DocumentElement.Paragraph "text"] ∧
    (markdown_to_flowables "- a\n- b\nplain\n- c").map toElement =
      [DocumentElement.BulletGroup ["a", "b"], DocumentElement.Spacer,
       DocumentElement.Paragraph "plain", DocumentElement.BulletGroup ["c"],
       DocumentElement.Spacer] := by
  constructor <;> decide

/-! ### Claim C4: totality behaviours of the formatter -/

/-- C4: `markdown_to_flowables` is total (it is a Lean function); the empty
string yields the empty sequence, a string whose lines are all
whitespace-only yields exactly one `Spacer(1, 6)` per line (blank lines are
not coalesced), and any non-blank line matching no recognised prefix is
emitted as a body `Paragraph`. -/
theorem markdown_to_flowables_c4_safety :
    markdown_to_flowables "" = [] ∧
    (∀ s : String, (∀ l ∈ pySplitlines s.toList, pyStripL l = []) →
      markdown_to_flowables s =
        List.replicate (pySplitlines s.toList).length (Flowable.Spacer 1 6)) ∧
    (∀ (l : List Char) (rest : List (List Char)),
      pyStripL (pyRstripL l) ≠ [] →
      ¬ ("## ".toList <+: pyRstripL l) →
      ¬ ("### ".toList <+: pyRstripL l) →
      isBulletL (pyRstripL l) = false →
      mdRun (l :: rest) none =
        Flowable.Paragraph (pyRstripL l).asString PStyle.body :: mdRun rest none) := by
  refine ⟨rfl, ?_, ?_⟩
  · intro s h
    exact mdRun_blank_lines _ h
  · intro l rest h1 h2 h3 h4
    exact mdRun_paragraph_step l rest h1 h2 h3 h4

/-- Witness for C4: the hypotheses are satisfiable and the theorem applies at
the concrete inputs `"\n \n"` (two blank lines) and the line `"hi"`. -/
theorem markdown_to_flowables_c4_safety_witness :
    markdown_to_flowables "\n \n" =
      List.replicate (pySplitlines ("\n \n").toList).length (Flowable.Spacer 1 6) ∧
    mdRun (['h', 'i'] :: []) none =
      Flowable.Paragraph (pyRstripL ['h', 'i']).asString PStyle.body :: mdRun [] none :=
  ⟨markdown_to_flowables_c4_safety.2.1 "\n \n" (by decide),
   markdown_to_flowables_c4_safety.2.2 ['h', 'i'] [] (by decide) (by decide)
     (by decide) (by decide)⟩

/-! ### Claim C9: the paragraph fall-through case

The claim states the emitted paragraph text is "the line as-is".  The source
first right-strips every line (`line = lines[i].rstrip()`) and emits
`Paragraph(line, body)`, so trailing whitespace is removed; leading
whitespace and interior content are preserved.  The claim fails on a line
with trailing whitespace. -/

/-- C9 counterexample: `"hi "` (trailing space) is non-blank, has no heading
prefix and no bullet marker, yet the emitted paragraph text is `"hi"`, not
the line as-is. -/
theorem mdRun_paragraph_c9_counterexample :
    pyStripL (pyRstripL "hi ".toList) ≠ [] ∧
    ¬ ("## ".toList <+: pyRstripL "hi ".toList) ∧
    ¬ ("### ".toList <+: pyRstripL "hi ".toList) ∧
    isBulletL (pyRstripL "hi ".toList) = false ∧
    markdown_to_flowables "hi " ≠ [Flowable.Paragraph "hi " PStyle.body] ∧
    markdown_to_flowables "hi " = [Flowable.Paragraph "hi" PStyle.body] := by
  refine ⟨by decide, by decide, by decide, by decide, by decide, by decide⟩

/-- C9 (amended): for every non-blank input line with no `"## "`/`"### "`
prefix and no bullet marker, `markdown_to_flowables`' loop emits a body
`Paragraph` whose text is the line with trailing whitespace removed; leading
whitespace and interior content are preserved (the line is not otherwise
trimmed). -/
theorem mdRun_paragraph_c9_amended (l : List Char) (rest : List (List Char))
    (h1 : pyStripL (pyRstripL l) ≠ [])
    (h2 : ¬ ("## ".toList <+: pyRstripL l))
    (h3 : ¬ ("### ".toList <+: pyRstripL l))
    (h4 : isBulletL (pyRstripL l) = false) :
    mdRun (l :: rest) none =
      Flowable.Paragraph (pyRstripL l).asString PStyle.body :: mdRun rest none :=
  mdRun_paragraph_step l rest h1 h2 h3 h4

/-- Witness for the amended C9 at the concrete line `"  a b "`: the paragraph
keeps the leading spaces and interior content and drops only the trailing
space. -/
theorem mdRun_paragraph_c9_amended_witness :
    mdRun ("  a b ".toList :: []) none =
      Flowable.Paragraph (pyRstripL "  a b ".toList).asString PStyle.body ::
        mdRun [] none :=
  mdRun_paragraph_c9_amended "  a b ".toList [] (by decide) (by decide)
    (by decide) (by decide)

/-! ### Fallback-loop lemmas -/

theorem isEmpty_true_iff {l : List Char} : l.isEmpty = true ↔ l = [] := by
  cases l <;> simp

theorem runChain_success (oracle : ModelOracle) (msgs : List (String × String)) :
    ∀ (chain : List String) (K : Nat) (comp : Completion) (le : Option LastError)
      (hK : K < chain.length),
      (∀ j (hj : j < K),
        attemptFailed oracle msgs (chain.get ⟨j, Nat.lt_trans hj hK⟩) = true) →
      oracle (chain.get ⟨K, hK⟩) msgs = AttemptOutcome.completes comp →
      (pyStripL (_extract_text_from_chat_completion comp).toList).isEmpty = false →
      runChain oracle msgs chain le =
        (FetchResult.ok (_extract_text_from_chat_completion comp)
          (chain.get ⟨K, hK⟩) comp.usage, chain.take (K + 1)) := by
  intro chain
  induction chain with
  | nil => intro K comp le hK; exact absurd hK (by simp)
  | cons m rest ih =>
    intro K comp le hK hfail hsucc hne
    match K with
    | 0 =>
      have hm : oracle m msgs = AttemptOutcome.completes comp := hsucc
      have hne' : pyStripL (_extract_text_from_chat_completion comp).toList ≠ [] := by
        intro h
        rw [h] at hne
        simp at hne
      simp only [runChain, hm, if_pos hne']
      rfl
    | K' + 1 =>
      have h0 : attemptFailed oracle msgs m = true :=
        hfail 0 (Nat.succ_pos K')
      have hfail' : ∀ j (hj : j < K'),
          attemptFailed oracle msgs
            (rest.get ⟨j, Nat.lt_trans hj (Nat.lt_of_succ_lt_succ hK)⟩) = true :=
        fun j hj => hfail (j + 1) (Nat.succ_lt_succ hj)
      have ihr := ih K' comp (some (attemptError oracle msgs m))
        (Nat.lt_of_succ_lt_succ hK) hfail' hsucc hne
      unfold attemptFailed at h0
      unfold runChain
      cases ho : oracle m msgs with
      | raises e =>
        have : attemptError oracle msgs m = LastError.exc e := by
          unfold attemptError; rw [ho]
        rw [this] at ihr
        simp only [ihr, List.take_succ_cons]
        rfl
      | completes comp0 =>
        rw [ho] at h0
        have hempty : pyStripL (_extract_text_from_chat_completion comp0).toList = [] :=
          isEmpty_true_iff.mp h0
        have hcond : ¬ (pyStripL (_extract_text_from_chat_completion comp0).toList ≠ []) :=
          not_not_intro hempty
        have : attemptError oracle msgs m = LastError.emptyContent m := by
          unfold attemptError; rw [ho]
        rw [this] at ihr
        simp only [if_neg hcond, ihr, List.take_succ_cons]
        rfl

theorem runChain_exhausted (oracle : ModelOracle) (msgs : List (String × String)) :
    ∀ (chain : List String) (le : Option LastError),
      (∀ m ∈ chain, attemptFailed oracle msgs m = true) →
      runChain oracle msgs chain le =
        (FetchResult.allFailed
          (chain.foldl (fun _ m => some (attemptError oracle msgs m)) le), chain) := by
  intro chain
  induction chain with
  | nil => intro le _; rfl
  | cons m rest ih =>
    intro le hfail
    have h0 : attemptFailed oracle msgs m = true := hfail m (List.mem_cons_self m rest)
    have hrest : ∀ x ∈ rest, attemptFailed oracle msgs x = true :=
      fun x hx => hfail x (List.mem_cons_of_mem m hx)
    unfold attemptFailed at h0
    unfold runChain
    cases ho : oracle m msgs with
    | raises e =>
      have he : attemptError oracle msgs m = LastError.exc e := by
        unfold attemptError; rw [ho]
      simp only [ih (some (LastError.exc e)) hrest, List.foldl_cons, he]
    | completes comp0 =>
      rw [ho] at h0
      have hempty : pyStripL (_extract_text_from_chat_completion comp0).toList = [] :=
        isEmpty_true_iff.mp h0
      have hcond : ¬ (pyStripL (_extract_text_from_chat_completion comp0).toList ≠ []) :=
        not_not_intro hempty
      have he : attemptError oracle msgs m = LastError.emptyContent m := by
        unfold attemptError; rw [ho]
      simp only [if_neg hcond, ih (some (LastError.emptyContent m)) hrest,
        List.foldl_cons, he]

/-! ### Claim C1: first successful attempt wins, later models never invoked -/

/-- C1: for every prompt payload and session, if the first `K` models of the
fallback chain fail (raise or yield whitespace-only extracted text) and the
`K+1`-st returns a completion with non-empty extracted text, then
`get_plan_markdown` returns that attempt's text, records that attempt's model
identifier and usage metadata in the session, and invokes exactly the first
`K+1` models — none after the success. -/
theorem get_plan_markdown_c1_fallback (oracle : ModelOracle) (user_prompt : String)
    (s : SessionState) (K : Nat) (comp : Completion)
    (hK : K < FALLBACK_MODELS.length)
    (hfail : ∀ j (hj : j < K),
      attemptFailed oracle (mkMessages user_prompt)
        (FALLBACK_MODELS.get ⟨j, Nat.lt_trans hj hK⟩) = true)
    (hsucc : oracle (FALLBACK_MODELS.get ⟨K, hK⟩) (mkMessages user_prompt) =
      AttemptOutcome.completes comp)
    (hne : (pyStripL (_extract_text_from_chat_completion comp).toList).isEmpty = false) :
    get_plan_markdown oracle user_prompt s =
      ({ s with last_model_used := some (FALLBACK_MODELS.get ⟨K, hK⟩),
                last_usage := some comp.usage },
       FetchResult.ok (_extract_text_from_chat_completion comp)
         (FALLBACK_MODELS.get ⟨K, hK⟩) comp.usage,
       FALLBACK_MODELS.take (K + 1)) := by
  unfold get_plan_markdown
  rw [runChain_success oracle (mkMessages user_prompt) FALLBACK_MODELS K comp none
    hK hfail hsucc hne]

/-- Witness for C1 at `K = 1`: the first model fails, the second succeeds,
and the third is never invoked. -/
theorem get_plan_markdown_c1_fallback_witness :
    get_plan_markdown c1Oracle "p" emptySession =
      ({ emptySession with last_model_used := some "gpt-5-mini",
                           last_usage := some (some ⟨7⟩) },
       FetchResult.ok "PLAN" "gpt-5-mini" (some ⟨7⟩),
       ["gpt-5", "gpt-5-mini"]) :=
  get_plan_markdown_c1_fallback c1Oracle "p" emptySession 1
    ⟨[Content.cstr "PLAN"], some ⟨7⟩⟩ (by decide) (by decide) (by rfl) (by decide)

/-! ### Claim C2: chain exhaustion -/

/-- C2: for every prompt payload and session, if every model in the fallback
chain fails (raises or yields whitespace-only extracted text), then
`get_plan_markdown` raises the final `RuntimeError` carrying the last
recorded per-attempt error (the one of `"gpt-4.1"`, the last identifier),
the session is untouched, and each identifier is invoked exactly once. -/
theorem get_plan_markdown_c2_exhaustion (oracle : ModelOracle) (user_prompt : String)
    (s : SessionState)
    (hfail : ∀ m ∈ FALLBACK_MODELS,
      attemptFailed oracle (mkMessages user_prompt) m = true) :
    get_plan_markdown oracle user_prompt s =
      (s, FetchResult.allFailed
        (some (attemptError oracle (mkMessages user_prompt) "gpt-4.1")),
       FALLBACK_MODELS) ∧
    ∀ m ∈ FALLBACK_MODELS, ((get_plan_markdown oracle user_prompt s).2.2.count m = 1) := by
  have h := runChain_exhausted oracle (mkMessages user_prompt) FALLBACK_MODELS none hfail
  have hmain : get_plan_markdown oracle user_prompt s =
      (s, FetchResult.allFailed
        (some (attemptError oracle (mkMessages user_prompt) "gpt-4.1")),
       FALLBACK_MODELS) := by
    unfold get_plan_markdown
    rw [h]
    rfl
  refine ⟨hmain, ?_⟩
  intro m hm
  rw [hmain]
  fin_cases hm <;> rfl

/-- Witness for C2: all three models fail; the recorded last error is the
empty-content error of `"gpt-4.1"` and all three were invoked once. -/
theorem get_plan_markdown_c2_exhaustion_witness :
    get_plan_markdown c2Oracle "p" emptySession =
      (emptySession,
       FetchResult.allFailed (some (LastError.emptyContent "gpt-4.1")),
       FALLBACK_MODELS) :=
  (get_plan_markdown_c2_exhaustion c2Oracle "p" emptySession (by decide)).1

/-! ### Claim C5: the tolerant text extractor -/

/-- C5: `_extract_text_from_chat_completion` is total (it never raises); a
string-shaped content that is non-empty after trimming is returned as-is
(untrimmed); a list-shaped content yields the extractable fragment texts
joined by newlines and trimmed; any other shape — including an empty
`choices` list, whose access raises and is caught — yields `""`. -/
theorem extract_text_c5 (comp : Completion) :
    (comp.choices.head? = none → _extract_text_from_chat_completion comp = "") ∧
    (∀ s, comp.choices.head? = some (Content.cstr s) → pyStripL s.toList ≠ [] →
      _extract_text_from_chat_completion comp = s) ∧
    (∀ s, comp.choices.head? = some (Content.cstr s) → pyStripL s.toList = [] →
      _extract_text_from_chat_completion comp = "") ∧
    (∀ ps, comp.choices.head? = some (Content.clist ps) →
      _extract_text_from_chat_completion comp =
        (pyStripL (joinNL ((ps.filterMap fragText).map String.toList))).asString) ∧
    (comp.choices.head? = some Content.cother →
      _extract_text_from_chat_completion comp = "") := by
  refine ⟨?_, ?_, ?_, ?_, ?_⟩
  · intro h; unfold _extract_text_from_chat_completion; rw [h]
  · intro s h hs; unfold _extract_text_from_chat_completion; rw [h]
    exact if_pos hs
  · intro s h hs; unfold _extract_text_from_chat_completion; rw [h]
    exact if_neg (not_not_intro hs)
  · intro ps h; unfold _extract_text_from_chat_completion; rw [h]
    by_cases hj : pyStripL (joinNL ((ps.filterMap fragText).map String.toList)) = []
    · rw [hj]
      exact if_neg (not_not_intro hj)
    · exact if_pos hj
  · intro h; unfold _extract_text_from_chat_completion; rw [h]

/-- Witness for C5: a mixed fragment list (string, unusable record, record
with a `"text"` field) yields the newline-joined trimmed text. -/
theorem extract_text_c5_witness :
    _extract_text_from_chat_completion
      ⟨[Content.clist [Fragment.fstr "a", Fragment.fother, Fragment.fdictText "b"]],
       none⟩ = "a\nb" :=
  (extract_text_c5 _).2.2.2.1
    [Fragment.fstr "a", Fragment.fother, Fragment.fdictText "b"] rfl

/-! ### Claim C7: reset restores the initial session state -/

/-- C7: for every session state, `reset_all_callback` restores every
session-scoped field to its initial value — the text fields and stored plan
to `""`, `num_days` to its default `3` — and removes the model/usage
metadata keys, so the resulting state equals the state `init_form_state`
establishes before the first submission. -/
theorem reset_all_callback_c7 (s : SessionState) :
    reset_all_callback s = init_form_state emptySession ∧
    (reset_all_callback s).destination = some "" ∧
    (reset_all_callback s).num_days = some 3 ∧
    (reset_all_callback s).interests = some "" ∧
    (reset_all_callback s).guardrails = some "" ∧
    (reset_all_callback s).plan_md = some "" ∧
    (reset_all_callback s).last_model_used = none ∧
    (reset_all_callback s).last_usage = none :=
  ⟨rfl, rfl, rfl, rfl, rfl, rfl, rfl, rfl⟩

/-! ### Claim C8: export failure never discards the generated plan -/

/-- C8: if a plan is stored (non-blank) and the PDF export step raises, the
session state — in particular the stored plan text — is unchanged and the
plan is still displayed; only the export outcome reports the error. -/
theorem render_output_block_c8_export_isolation (s : SessionState)
    (h : pyStripL (s.plan_md.getD "").toList ≠ []) :
    (render_output_block s true).state = s ∧
    (render_output_block s true).state.plan_md = s.plan_md ∧
    (render_output_block s true).displayedPlan = some (s.plan_md.getD "") ∧
    (render_output_block s true).exportResult = some ExportOutcome.exportError := by
  unfold render_output_block
  rw [if_pos h]
  exact ⟨rfl, rfl, rfl, rfl⟩

/-- Witness for C8 at a session holding the plan `"## Plan"`. -/
theorem render_output_block_c8_export_isolation_witness :
    (render_output_block { emptySession with plan_md := some "## Plan" } true).state =
      { emptySession with plan_md := some "## Plan" } ∧
    (render_output_block { emptySession with plan_md := some "## Plan" } true).state.plan_md =
      ({ emptySession with plan_md := some "## Plan" } : SessionState).plan_md ∧
    (render_output_block { emptySession with plan_md := some "## Plan" } true).displayedPlan =
      some (({ emptySession with plan_md := some "## Plan" } : SessionState).plan_md.getD "") ∧
    (render_output_block { emptySession with plan_md := some "## Plan" } true).exportResult =
      some ExportOutcome.exportError :=
  render_output_block_c8_export_isolation
    { emptySession with plan_md := some "## Plan" } (by decide)

/-! ### Claim C10: a failed generation cycle leaves the session untouched -/

/-- C10: if the destination is non-empty (so a fetch happens) and every
fallback attempt fails, the submit handler propagates the fetch error and
the session state — stored plan text, `last_model_used` and `last_usage` —
is exactly what it was before the cycle began. -/
theorem submit_handler_c10_failure_preserves (oracle : ModelOracle)
    (s : SessionState)
    (hdest : s.destination.getD "" ≠ "")
    (hfail : ∀ m ∈ FALLBACK_MODELS,
      attemptFailed oracle
        (mkMessages (build_user_prompt (s.destination.getD "") (s.num_days.getD 3)
          (s.interests.getD "") (s.guardrails.getD ""))) m = true) :
    submit_handler oracle s = (s, true) ∧
    (submit_handler oracle s).1.plan_md = s.plan_md ∧
    (submit_handler oracle s).1.last_model_used = s.last_model_used ∧
    (submit_handler oracle s).1.last_usage = s.last_usage := by
  have h := runChain_exhausted oracle
    (mkMessages (build_user_prompt (s.destination.getD "") (s.num_days.getD 3)
      (s.interests.getD "") (s.guardrails.getD ""))) FALLBACK_MODELS none hfail
  have hmain : submit_handler oracle s = (s, true) := by
    unfold submit_handler
    rw [if_neg hdest]
    unfold get_plan_markdown
    rw [h]
  exact ⟨hmain, by rw [hmain], by rw [hmain], by rw [hmain]⟩

/-- Witness for C10: a session holding an earlier plan and metadata is
untouched by a fully failing generation cycle. -/
theorem submit_handler_c10_failure_preserves_witness :
    submit_handler c10Oracle
      { destination := some "Paris", num_days := some 3, interests := some "",
        guardrails := some "", plan_md := some "OLD PLAN",
        last_model_used := some "gpt-5", last_usage := some (some ⟨3⟩) } =
      ({ destination := some "Paris", num_days := some 3, interests := some "",
         guardrails := some "", plan_md := some "OLD PLAN",
         last_model_used := some "gpt-5", last_usage := some (some ⟨3⟩) }, true) :=
  (submit_handler_c10_failure_preserves c10Oracle _ (by decide) (by decide)).1

/-! ## Lemmas about `dedent` and the prompt builder (claim C6) -/

theorem splitNL_ne_nil (l : List Char) : splitNL l ≠ [] := by
  induction l with
  | nil => simp [splitNL]
  | cons c rest ih =>
    by_cases hc : c = '\n'
    · subst hc; simp [splitNL]
    · rw [splitNL.eq_def]
      cases rest with
      | nil =>
        simp [hc]
        split <;> simp_all [splitNL]
      | cons d t =>
        simp [hc]
        split <;> simp_all

theorem splitNL_cons_of_ne {c : Char} (hc : c ≠ '\n') (rest : List Char) :
    splitNL (c :: rest) =
      match splitNL rest with
      | [] => [[c]]
      | l :: ls => (c :: l) :: ls := by
  rw [splitNL.eq_def]
  cases rest with
  | nil => simp [hc]
  | cons d t => simp [hc]

theorem splitNL_nl (rest : List Char) : splitNL ('\n' :: rest) = [] :: splitNL rest := rfl

theorem splitNL_append_nl (a b : List Char) :
    splitNL (a ++ '\n' :: b) = splitNL a ++ splitNL b := by
  induction a with
  | nil => rfl
  | cons c t ih =>
    by_cases hc : c = '\n'
    · subst hc
      simp only [List.cons_append, splitNL_nl, ih, List.cons_append]
    · rw [List.cons_append, splitNL_cons_of_ne hc, splitNL_cons_of_ne hc, ih]
      cases hsp : splitNL t with
      | nil => exact absurd hsp (splitNL_ne_nil t)
      | cons l ls => simp

theorem splitNL_no_nl {a : List Char} (h : '\n' ∉ a) : splitNL a = [a] := by
  induction a with
  | nil => rfl
  | cons c t ih =>
    have hc : c ≠ '\n' := fun hcc => h (hcc ▸ List.mem_cons_self c t)
    have ht : '\n' ∉ t := fun htt => h (List.mem_cons_of_mem c htt)
    rw [splitNL_cons_of_ne hc, ih ht]

theorem joinNL_cons_of_ne_nil {x : List Char} {ls : List (List Char)} (h : ls ≠ []) :
    joinNL (x :: ls) = x ++ '\n' :: joinNL ls := by
  cases ls with
  | nil => exact absurd rfl h
  | cons y t => rfl

theorem joinNL_append {as bs : List (List Char)} (ha : as ≠ []) (hb : bs ≠ []) :
    joinNL (as ++ bs) = joinNL as ++ '\n' :: joinNL bs := by
  induction as with
  | nil => exact absurd rfl ha
  | cons x t ih =>
    cases t with
    | nil =>
      rw [List.singleton_append, joinNL_cons_of_ne_nil hb]
      rfl
    | cons y u =>
      rw [List.cons_append, joinNL_cons_of_ne_nil (by simp),
        joinNL_cons_of_ne_nil (by simp), ih (by simp)]
      simp

theorem commonPfx_pfx_left : ∀ (a b : List Char), commonPfx a b <+: a
  | [], _ => by simp [commonPfx]
  | _ :: _, [] => by simp [commonPfx]
  | x :: xs, y :: ys => by
    rw [commonPfx]
    by_cases h : x = y
    · rw [if_pos h]
      obtain ⟨t, ht⟩ := commonPfx_pfx_left xs ys
      exact ⟨t, by rw [List.cons_append, ht]⟩
    · rw [if_neg h]
      exact List.nil_prefix

theorem isPrefixOf_true_iff : ∀ (a b : List Char), a.isPrefixOf b = true ↔ a <+: b
  | [], b => by simp [List.isPrefixOf]
  | a :: as, [] => by simp [List.isPrefixOf]
  | a :: as, b :: bs => by
    simp only [List.isPrefixOf, Bool.and_eq_true, beq_iff_eq]
    constructor
    · rintro ⟨rfl, h⟩
      obtain ⟨t, ht⟩ := (isPrefixOf_true_iff as bs).mp h
      exact ⟨t, by rw [List.cons_append, ht]⟩
    · intro h
      rcases h with ⟨t, ht⟩
      injection ht with h1 h2
      exact ⟨h1, (isPrefixOf_true_iff as bs).mpr ⟨t, h2⟩⟩

/-- The fold `marginFold` starting from `some m` produces a prefix of `m`. -/
theorem marginFold_pfx : ∀ (inds : List (List Char)) (m : List Char),
    ∃ m', marginFold (some m) inds = some m' ∧ m' <+: m
  | [], m => ⟨m, rfl, List.prefix_rfl⟩
  | ind :: rest, m => by
    rw [marginFold]
    by_cases h1 : m.isPrefixOf ind
    · rw [if_pos h1]
      exact marginFold_pfx rest m
    · rw [if_neg h1]
      by_cases h2 : ind.isPrefixOf m
      · rw [if_pos h2]
        obtain ⟨m', hm', hp⟩ := marginFold_pfx rest ind
        exact ⟨m', hm', hp.trans ((isPrefixOf_true_iff ind m).mp h2)⟩
      · rw [if_neg h2]
        obtain ⟨m', hm', hp⟩ := marginFold_pfx rest (commonPfx m ind)
        exact ⟨m', hm', hp.trans (commonPfx_pfx_left m ind)⟩

/-- A prefix of `replicate n c` is `replicate k c` for some `k ≤ n`. -/
theorem pfx_replicate {l : List Char} {n : Nat} {c : Char}
    (h : l <+: List.replicate n c) :
    l = List.replicate l.length c ∧ l.length ≤ n := by
  constructor
  · exact List.eq_replicate_of_mem fun b hb =>
      List.eq_of_mem_replicate (h.subset hb)
  · have hl := h.length_le
    simpa using hl


theorem removeMargin_nil (m : List Char) : removeMargin m [] = [] := by
  cases m <;> simp [removeMargin, List.isPrefixOf]

theorem removeMargin_empty (l : List Char) : removeMargin [] l = l := by
  simp [removeMargin, List.isPrefixOf]

theorem removeMargin_sp {k : Nat} (hk : k ≤ 4) (t : List Char) :
    removeMargin (spL k) (spL 4 ++ t) = spL (4 - k) ++ t := by
  have hsplit : spL 4 ++ t = spL k ++ (spL (4 - k) ++ t) := by
    rw [← List.append_assoc]
    unfold spL
    rw [← List.replicate_add]
    congr 2
    omega
  have hdrop : (spL k ++ (spL (4 - k) ++ t)).drop (spL k).length = spL (4 - k) ++ t :=
    List.drop_left _ _
  unfold removeMargin
  rw [hsplit, if_pos ((isPrefixOf_true_iff _ _).mpr ⟨spL (4 - k) ++ t, rfl⟩), hdrop]

theorem normWSLine_keep {l : List Char} {c : Char} (hm : c ∈ l)
    (hc : isIndentChar c = false) : normWSLine l = l := by
  unfold normWSLine
  rw [if_neg]
  simp only [Bool.and_eq_true, List.all_eq_true]
  rintro ⟨-, hall⟩
  have hct := hall c hm
  rw [hc] at hct
  cases hct

theorem normWSLine_of_dash {l : List Char} (h : '-' ∈ l) : normWSLine l = l :=
  normWSLine_keep h (by decide)

theorem takeWhile_append_stop {p : Char → Bool} {a : List Char}
    (ha : ∀ c ∈ a, p c = true) {b : Char} (hb : p b = false) (t : List Char) :
    (a ++ b :: t).takeWhile p = a ∧ (a ++ b :: t).dropWhile p = b :: t := by
  induction a with
  | nil => simp [List.takeWhile_cons, List.dropWhile_cons, hb]
  | cons x xs ih =>
    have hx : p x = true := ha x (List.mem_cons_self x xs)
    have hxs : ∀ c ∈ xs, p c = true := fun c hc => ha c (List.mem_cons_of_mem x hc)
    obtain ⟨h1, h2⟩ := ih hxs
    refine ⟨?_, ?_⟩
    · rw [List.cons_append, List.takeWhile_cons, hx, if_pos rfl, h1]
    · rw [List.cons_append, List.dropWhile_cons, hx, if_pos rfl, h2]

theorem lineIndent_sp4 {b : Char} (hb : isIndentChar b = false) (t : List Char) :
    lineIndent (spL 4 ++ b :: t) = some (spL 4) := by
  have ha : ∀ c ∈ spL 4, isIndentChar c = true := fun c hc => by
    have := List.eq_of_mem_replicate hc
    subst this
    rfl
  obtain ⟨h1, h2⟩ := takeWhile_append_stop ha hb t
  unfold lineIndent
  rw [h2, if_neg (by simp), h1]

theorem dedentLines_eq_map (lines : List (List Char)) {m' : List Char}
    (h : marginFold none ((lines.map normWSLine).filterMap lineIndent) = some m') :
    dedentLines lines = (lines.map normWSLine).map (removeMargin m') := by
  have hid : ∀ ls : List (List Char), ls.map (removeMargin []) = ls := by
    intro ls
    induction ls with
    | nil => rfl
    | cons x t ih => rw [List.map_cons, removeMargin_empty, ih]
  simp only [dedentLines, h]
  by_cases hm : m' = []
  · subst hm
    simp [hid]
  · simp [hm]

/-! ### Claim C6: the prompt builder

The template's own lines all carry a four-space indent, so dedent's margin is
always a space prefix of four spaces; the lemmas below compute the exact
shape of the dedented, stripped output and derive the verbatim-containment
properties. -/

theorem lit0_eq : "\n    TRIP INPUTS\n    - Destination: ".toList =
    '\n' :: ((spL 4 ++ dLine1) ++ '\n' :: (spL 4 ++ dDest)) := by decide

theorem lit1_eq : "\n    - Number of days: ".toList =
    '\n' :: (spL 4 ++ dNum) := by decide

theorem lit2_eq : "\n    - Special interests: ".toList =
    '\n' :: (spL 4 ++ dInt) := by decide

theorem lit3_eq : "\n    - Guardrails / constraints: ".toList =
    '\n' :: (spL 4 ++ dGua) := by decide

theorem lit4_eq : "\n\n    REQUIREMENTS\n    - Create a complete plan for all ".toList =
    '\n' :: '\n' :: ((spL 4 ++ dReq) ++ '\n' :: (spL 4 ++ dCre)) := by decide

theorem lit5_eq : " days.\n    - Divide each day into Morning / Afternoon / Evening.\n    - For each activity, give a short reason why it fits the interests.\n    - Make sure every item respects the guardrails.\n    - Keep it readable (around 800–1400 words depending on trip length).\n    ".toList =
    dDays ++ '\n' :: ((spL 4 ++ dDiv) ++ '\n' :: ((spL 4 ++ dFor) ++ '\n' ::
      ((spL 4 ++ dMak) ++ '\n' :: ((spL 4 ++ dKee) ++ '\n' :: spL 4)))) := by decide

theorem fstring_chunks (d ns i' g' : List Char) :
    fstring d ns i' g' =
      '\n' :: ((spL 4 ++ dLine1) ++ '\n' :: ((spL 4 ++ dDest ++ d) ++ '\n' ::
      ((spL 4 ++ dNum ++ ns) ++ '\n' ::
      ((spL 4 ++ dInt ++ i' ++ '\n' :: (spL 4 ++ dGua ++ g')) ++ '\n' ::
      ('\n' :: ((spL 4 ++ dReq) ++ '\n' :: ((spL 4 ++ dCre ++ ns ++ dDays) ++ '\n' ::
      ((spL 4 ++ dDiv) ++ '\n' :: ((spL 4 ++ dFor) ++ '\n' ::
      ((spL 4 ++ dMak) ++ '\n' :: ((spL 4 ++ dKee) ++ '\n' :: spL 4))))))))))) := by
  unfold fstring
  rw [lit0_eq, lit1_eq, lit2_eq, lit3_eq, lit4_eq, lit5_eq]
  simp only [List.cons_append, List.append_assoc, List.nil_append]



theorem splitNL_fstring (d ns i' g' : List Char) (hd : '\n' ∉ d) (hns : '\n' ∉ ns) :
    splitNL (fstring d ns i' g') =
      [] :: (spL 4 ++ dLine1) :: (spL 4 ++ dDest ++ d) :: (spL 4 ++ dNum ++ ns) ::
      (splitNL (spL 4 ++ dInt ++ i' ++ '\n' :: (spL 4 ++ dGua ++ g')) ++
       ([] :: (spL 4 ++ dReq) :: (spL 4 ++ dCre ++ ns ++ dDays) ::
        (spL 4 ++ dDiv) :: (spL 4 ++ dFor) :: (spL 4 ++ dMak) ::
        (spL 4 ++ dKee) :: [spL 4])) := by
  have h1 : '\n' ∉ spL 4 ++ dLine1 := by decide
  have h2 : '\n' ∉ spL 4 ++ dDest ++ d := by
    intro hmem
    rcases List.mem_append.mp hmem with hmem1 | hmem2
    · rcases List.mem_append.mp hmem1 with hx | hx
      · exact absurd hx (by decide)
      · exact absurd hx (by decide)
    · exact hd hmem2
  have h3 : '\n' ∉ spL 4 ++ dNum ++ ns := by
    intro hmem
    rcases List.mem_append.mp hmem with hmem1 | hmem2
    · rcases List.mem_append.mp hmem1 with hx | hx
      · exact absurd hx (by decide)
      · exact absurd hx (by decide)
    · exact hns hmem2
  have h4 : '\n' ∉ spL 4 ++ dReq := by decide
  have h5 : '\n' ∉ spL 4 ++ dCre ++ ns ++ dDays := by
    intro hmem
    rcases List.mem_append.mp hmem with hmem1 | hmem2
    · rcases List.mem_append.mp hmem1 with hx | hx
      · rcases List.mem_append.mp hx with hy | hy
        · exact absurd hy (by decide)
        · exact absurd hy (by decide)
      · exact hns hx
    · exact absurd hmem2 (by decide)
  have h6 : '\n' ∉ spL 4 ++ dDiv := by decide
  have h7 : '\n' ∉ spL 4 ++ dFor := by decide
  have h8 : '\n' ∉ spL 4 ++ dMak := by decide
  have h9 : '\n' ∉ spL 4 ++ dKee := by decide
  have h10 : '\n' ∉ spL 4 := by decide
  rw [fstring_chunks, splitNL_nl,
    splitNL_append_nl (spL 4 ++ dLine1),
    splitNL_append_nl (spL 4 ++ dDest ++ d),
    splitNL_append_nl (spL 4 ++ dNum ++ ns),
    splitNL_append_nl (spL 4 ++ dInt ++ i' ++ '\n' :: (spL 4 ++ dGua ++ g')),
    splitNL_nl,
    splitNL_append_nl (spL 4 ++ dReq),
    splitNL_append_nl (spL 4 ++ dCre ++ ns ++ dDays),
    splitNL_append_nl (spL 4 ++ dDiv),
    splitNL_append_nl (spL 4 ++ dFor),
    splitNL_append_nl (spL 4 ++ dMak),
    splitNL_append_nl (spL 4 ++ dKee),
    splitNL_no_nl h1, splitNL_no_nl h2, splitNL_no_nl h3, splitNL_no_nl h4,
    splitNL_no_nl h5, splitNL_no_nl h6, splitNL_no_nl h7, splitNL_no_nl h8,
    splitNL_no_nl h9, splitNL_no_nl h10]
  simp



theorem dedentLines_fstring (d ns i' g' : List Char) (hd : '\n' ∉ d) (hns : '\n' ∉ ns) :
    ∃ k, k ≤ 4 ∧
      dedentLines (splitNL (fstring d ns i' g')) =
        [] :: (spL (4 - k) ++ dLine1) :: (spL (4 - k) ++ dDest ++ d) ::
        (spL (4 - k) ++ dNum ++ ns) ::
        ((((splitNL (spL 4 ++ dInt ++ i' ++ '\n' :: (spL 4 ++ dGua ++ g'))).map
            normWSLine).map (removeMargin (spL k))) ++
         ([] :: (spL (4 - k) ++ dReq) :: (spL (4 - k) ++ dCre ++ ns ++ dDays) ::
          (spL (4 - k) ++ dDiv) :: (spL (4 - k) ++ dFor) :: (spL (4 - k) ++ dMak) ::
          (spL (4 - k) ++ dKee) :: [([] : List Char)])) := by
  have hn1 : normWSLine (spL 4 ++ dLine1) = spL 4 ++ dLine1 := by decide
  have hn2 : normWSLine (spL 4 ++ dDest ++ d) = spL 4 ++ dDest ++ d :=
    normWSLine_of_dash (List.mem_append_left d (List.mem_append_right (spL 4) (by decide)))
  have hn3 : normWSLine (spL 4 ++ dNum ++ ns) = spL 4 ++ dNum ++ ns :=
    normWSLine_of_dash (List.mem_append_left ns (List.mem_append_right (spL 4) (by decide)))
  have hn4 : normWSLine (spL 4 ++ dReq) = spL 4 ++ dReq := by decide
  have hn5 : normWSLine (spL 4 ++ dCre ++ ns ++ dDays) = spL 4 ++ dCre ++ ns ++ dDays :=
    normWSLine_of_dash (List.mem_append_left dDays (List.mem_append_left ns
      (List.mem_append_right (spL 4) (by decide))))
  have hn6 : normWSLine (spL 4 ++ dDiv) = spL 4 ++ dDiv := by decide
  have hn7 : normWSLine (spL 4 ++ dFor) = spL 4 ++ dFor := by decide
  have hn8 : normWSLine (spL 4 ++ dMak) = spL 4 ++ dMak := by decide
  have hn9 : normWSLine (spL 4 ++ dKee) = spL 4 ++ dKee := by decide
  have hn10 : normWSLine (spL 4) = ([] : List Char) := by decide
  have hn0 : normWSLine ([] : List Char) = [] := by decide
  have hsplit := splitNL_fstring d ns i' g' hd hns
  have hmapnorm : (splitNL (fstring d ns i' g')).map normWSLine =
      [] :: (spL 4 ++ dLine1) :: (spL 4 ++ dDest ++ d) :: (spL 4 ++ dNum ++ ns) ::
      (((splitNL (spL 4 ++ dInt ++ i' ++ '\n' :: (spL 4 ++ dGua ++ g'))).map normWSLine) ++
       ([] :: (spL 4 ++ dReq) :: (spL 4 ++ dCre ++ ns ++ dDays) ::
        (spL 4 ++ dDiv) :: (spL 4 ++ dFor) :: (spL 4 ++ dMak) ::
        (spL 4 ++ dKee) :: [([] : List Char)])) := by
    rw [hsplit]
    simp only [List.map_cons, List.map_append, List.map_nil, hn0, hn1, hn2, hn3,
      hn4, hn5, hn6, hn7, hn8, hn9, hn10]
  have hli0 : lineIndent ([] : List Char) = none := by decide
  have hli1 : lineIndent (spL 4 ++ dLine1) = some (spL 4) :=
    lineIndent_sp4 (by decide) _
  have hinds : ((splitNL (fstring d ns i' g')).map normWSLine).filterMap lineIndent =
      spL 4 :: (((spL 4 ++ dDest ++ d) :: (spL 4 ++ dNum ++ ns) ::
      (((splitNL (spL 4 ++ dInt ++ i' ++ '\n' :: (spL 4 ++ dGua ++ g'))).map normWSLine) ++
       ([] :: (spL 4 ++ dReq) :: (spL 4 ++ dCre ++ ns ++ dDays) ::
        (spL 4 ++ dDiv) :: (spL 4 ++ dFor) :: (spL 4 ++ dMak) ::
        (spL 4 ++ dKee) :: [([] : List Char)]))).filterMap lineIndent) := by
    rw [hmapnorm, List.filterMap_cons_none hli0, List.filterMap_cons_some hli1]
  obtain ⟨m', hfold, hpfx⟩ := marginFold_pfx
    (((spL 4 ++ dDest ++ d) :: (spL 4 ++ dNum ++ ns) ::
      (((splitNL (spL 4 ++ dInt ++ i' ++ '\n' :: (spL 4 ++ dGua ++ g'))).map normWSLine) ++
       ([] :: (spL 4 ++ dReq) :: (spL 4 ++ dCre ++ ns ++ dDays) ::
        (spL 4 ++ dDiv) :: (spL 4 ++ dFor) :: (spL 4 ++ dMak) ::
        (spL 4 ++ dKee) :: [([] : List Char)]))).filterMap lineIndent) (spL 4)
  have hfold0 : marginFold none (((splitNL (fstring d ns i' g')).map normWSLine).filterMap
      lineIndent) = some m' := by
    rw [hinds]
    exact hfold
  obtain ⟨hrep, hlen⟩ := pfx_replicate hpfx
  refine ⟨m'.length, hlen, ?_⟩
  have hded := dedentLines_eq_map (splitNL (fstring d ns i' g')) hfold0
  rw [hded, hmapnorm]
  have hrm : removeMargin m' = removeMargin (spL m'.length) := by
    unfold spL
    rw [← hrep]
  simp only [List.map_cons, List.map_append, List.map_nil, List.append_assoc, hrm,
    removeMargin_nil, removeMargin_sp hlen]



theorem dedentL_fstring_shape (d ns i' g' : List Char) (hd : '\n' ∉ d) (hns : '\n' ∉ ns) :
    ∃ (k : Nat) (mm : List (List Char)), k ≤ 4 ∧ mm ≠ [] ∧
      mm = ((splitNL (spL 4 ++ dInt ++ i' ++ '\n' :: (spL 4 ++ dGua ++ g'))).map
        normWSLine).map (removeMargin (spL k)) ∧
      dedentL (fstring d ns i' g') =
        '\n' :: ((spL (4 - k) ++ dLine1) ++ '\n' :: ((spL (4 - k) ++ dDest ++ d) ++ '\n' ::
        ((spL (4 - k) ++ dNum ++ ns) ++ '\n' :: (joinNL mm ++ '\n' :: ('\n' ::
        ((spL (4 - k) ++ dReq) ++ '\n' :: ((spL (4 - k) ++ dCre ++ ns ++ dDays) ++ '\n' ::
        ((spL (4 - k) ++ dDiv) ++ '\n' :: ((spL (4 - k) ++ dFor) ++ '\n' ::
        ((spL (4 - k) ++ dMak) ++ '\n' :: ((spL (4 - k) ++ dKee) ++ '\n' ::
        ([] : List Char)))))))))))) := by
  obtain ⟨k, hk, hded⟩ := dedentLines_fstring d ns i' g' hd hns
  have hmmne : (((splitNL (spL 4 ++ dInt ++ i' ++ '\n' :: (spL 4 ++ dGua ++ g'))).map
      normWSLine).map (removeMargin (spL k))) ≠ [] := by
    intro hcon
    rw [List.map_eq_nil_iff, List.map_eq_nil_iff] at hcon
    exact splitNL_ne_nil _ hcon
  refine ⟨k, _, hk, hmmne, rfl, ?_⟩
  unfold dedentL
  rw [hded]
  rw [joinNL_cons_of_ne_nil (by simp), joinNL_cons_of_ne_nil (by simp),
    joinNL_cons_of_ne_nil (by simp),
    joinNL_cons_of_ne_nil (by simp [List.append_eq_nil]),
    joinNL_append hmmne (by simp),
    joinNL_cons_of_ne_nil (by simp), joinNL_cons_of_ne_nil (by simp),
    joinNL_cons_of_ne_nil (by simp), joinNL_cons_of_ne_nil (by simp),
    joinNL_cons_of_ne_nil (by simp), joinNL_cons_of_ne_nil (by simp),
    joinNL_cons_of_ne_nil (by simp)]
  simp [joinNL]



theorem fstring_contains_destination (d ns i' g' : List Char)
    (hd : '\n' ∉ d) (hns : '\n' ∉ ns) :
    d <:+: pyStripL (dedentL (fstring d ns i' g')) := by
  obtain ⟨k, mm, hk, hmmne, hmmeq, hT⟩ := dedentL_fstring_shape d ns i' g' hd hns
  rw [hT]
  have hdecomp :
      '\n' :: ((spL (4 - k) ++ dLine1) ++ '\n' :: ((spL (4 - k) ++ dDest ++ d) ++ '\n' ::
      ((spL (4 - k) ++ dNum ++ ns) ++ '\n' :: (joinNL mm ++ '\n' :: ('\n' ::
      ((spL (4 - k) ++ dReq) ++ '\n' :: ((spL (4 - k) ++ dCre ++ ns ++ dDays) ++ '\n' ::
      ((spL (4 - k) ++ dDiv) ++ '\n' :: ((spL (4 - k) ++ dFor) ++ '\n' ::
      ((spL (4 - k) ++ dMak) ++ '\n' :: ((spL (4 - k) ++ dKee) ++ '\n' ::
      ([] : List Char)))))))))))) =
      ('\n' :: ((spL (4 - k) ++ dLine1) ++ '\n' :: (spL (4 - k) ++ dDest))) ++
      (d ++ ('\n' :: ((spL (4 - k) ++ dNum ++ ns) ++ '\n' :: (joinNL mm ++ '\n' :: ('\n' ::
      ((spL (4 - k) ++ dReq) ++ '\n' :: ((spL (4 - k) ++ dCre ++ ns ++ dDays) ++ '\n' ::
      ((spL (4 - k) ++ dDiv) ++ '\n' :: ((spL (4 - k) ++ dFor) ++ '\n' ::
      ((spL (4 - k) ++ dMak) ++ '\n' :: ((spL (4 - k) ++ dKee) ++ '\n' ::
      ([] : List Char)))))))))))) := by
    simp [List.append_assoc]
  rw [hdecomp]
  refine strip_infix_of_decomp _ d _ 'T' 'N' ?_ (by decide) ?_ (by decide)
  · exact List.mem_cons_of_mem _ (List.mem_append_left _
      (List.mem_append_right _ (by decide)))
  · exact List.mem_cons_of_mem _ (List.mem_append_left _
      (List.mem_append_left _ (List.mem_append_right _ (by decide))))

theorem fstring_contains_numdays (d ns i' g' : List Char)
    (hd : '\n' ∉ d) (hns : '\n' ∉ ns) :
    ns <:+: pyStripL (dedentL (fstring d ns i' g')) := by
  obtain ⟨k, mm, hk, hmmne, hmmeq, hT⟩ := dedentL_fstring_shape d ns i' g' hd hns
  rw [hT]
  have hdecomp :
      '\n' :: ((spL (4 - k) ++ dLine1) ++ '\n' :: ((spL (4 - k) ++ dDest ++ d) ++ '\n' ::
      ((spL (4 - k) ++ dNum ++ ns) ++ '\n' :: (joinNL mm ++ '\n' :: ('\n' ::
      ((spL (4 - k) ++ dReq) ++ '\n' :: ((spL (4 - k) ++ dCre ++ ns ++ dDays) ++ '\n' ::
      ((spL (4 - k) ++ dDiv) ++ '\n' :: ((spL (4 - k) ++ dFor) ++ '\n' ::
      ((spL (4 - k) ++ dMak) ++ '\n' :: ((spL (4 - k) ++ dKee) ++ '\n' ::
      ([] : List Char)))))))))))) =
      ('\n' :: ((spL (4 - k) ++ dLine1) ++ '\n' :: ((spL (4 - k) ++ dDest ++ d) ++ '\n' ::
        (spL (4 - k) ++ dNum)))) ++
      (ns ++ ('\n' :: (joinNL mm ++ '\n' :: ('\n' ::
      ((spL (4 - k) ++ dReq) ++ '\n' :: ((spL (4 - k) ++ dCre ++ ns ++ dDays) ++ '\n' ::
      ((spL (4 - k) ++ dDiv) ++ '\n' :: ((spL (4 - k) ++ dFor) ++ '\n' ::
      ((spL (4 - k) ++ dMak) ++ '\n' :: ((spL (4 - k) ++ dKee) ++ '\n' ::
      ([] : List Char))))))))))) := by
    simp [List.append_assoc]
  rw [hdecomp]
  refine strip_infix_of_decomp _ ns _ 'T' 'R' ?_ (by decide) ?_ (by decide)
  · exact List.mem_cons_of_mem _ (List.mem_append_left _
      (List.mem_append_right _ (by decide)))
  · refine List.mem_cons_of_mem _ (List.mem_append_right _ ?_)
    refine List.mem_cons_of_mem _ (List.mem_cons_of_mem _ ?_)
    exact List.mem_append_left _ (List.mem_append_right _ (by decide))



theorem fstring_contains_placeholder (d ns g' : List Char)
    (hd : '\n' ∉ d) (hns : '\n' ∉ ns) :
    "No special interests provided".toList <:+:
      pyStripL (dedentL (fstring d ns "No special interests provided".toList g')) := by
  obtain ⟨k, mm, hk, hmmne, hmmeq, hT⟩ :=
    dedentL_fstring_shape d ns "No special interests provided".toList g' hd hns
  have hmid : splitNL (spL 4 ++ dInt ++ "No special interests provided".toList ++ '\n' ::
      (spL 4 ++ dGua ++ g')) =
      (spL 4 ++ dInt ++ "No special interests provided".toList) ::
        splitNL (spL 4 ++ dGua ++ g') := by
    rw [splitNL_append_nl (spL 4 ++ dInt ++ "No special interests provided".toList),
      splitNL_no_nl (by decide)]
    simp
  have hassoc : spL 4 ++ dInt ++ "No special interests provided".toList =
      spL 4 ++ (dInt ++ "No special interests provided".toList) := by
    simp [List.append_assoc]
  have hmm2 : mm = (spL (4 - k) ++ dInt ++ "No special interests provided".toList) ::
      ((splitNL (spL 4 ++ dGua ++ g')).map normWSLine).map (removeMargin (spL k)) := by
    rw [hmmeq, hmid]
    simp only [List.map_cons]
    rw [normWSLine_of_dash (List.mem_append_left _ (List.mem_append_right _ (by decide))),
      hassoc, removeMargin_sp hk]
    simp [List.append_assoc]
  have hqne : ((splitNL (spL 4 ++ dGua ++ g')).map normWSLine).map (removeMargin (spL k)) ≠ [] := by
    intro hcon
    rw [List.map_eq_nil_iff, List.map_eq_nil_iff] at hcon
    exact splitNL_ne_nil _ hcon
  rw [hT, hmm2, joinNL_cons_of_ne_nil hqne]
  have hdecomp :
      '\n' :: ((spL (4 - k) ++ dLine1) ++ '\n' :: ((spL (4 - k) ++ dDest ++ d) ++ '\n' ::
      ((spL (4 - k) ++ dNum ++ ns) ++ '\n' ::
      (((spL (4 - k) ++ dInt ++ "No special interests provided".toList) ++ '\n' ::
        joinNL (((splitNL (spL 4 ++ dGua ++ g')).map normWSLine).map (removeMargin (spL k)))) ++
        '\n' :: ('\n' ::
      ((spL (4 - k) ++ dReq) ++ '\n' :: ((spL (4 - k) ++ dCre ++ ns ++ dDays) ++ '\n' ::
      ((spL (4 - k) ++ dDiv) ++ '\n' :: ((spL (4 - k) ++ dFor) ++ '\n' ::
      ((spL (4 - k) ++ dMak) ++ '\n' :: ((spL (4 - k) ++ dKee) ++ '\n' ::
      ([] : List Char)))))))))))) =
      ('\n' :: ((spL (4 - k) ++ dLine1) ++ '\n' :: ((spL (4 - k) ++ dDest ++ d) ++ '\n' ::
       ((spL (4 - k) ++ dNum ++ ns) ++ '\n' :: (spL (4 - k) ++ dInt))))) ++
      ("No special interests provided".toList ++ ('\n' ::
       (joinNL (((splitNL (spL 4 ++ dGua ++ g')).map normWSLine).map (removeMargin (spL k))) ++
        '\n' :: ('\n' ::
      ((spL (4 - k) ++ dReq) ++ '\n' :: ((spL (4 - k) ++ dCre ++ ns ++ dDays) ++ '\n' ::
      ((spL (4 - k) ++ dDiv) ++ '\n' :: ((spL (4 - k) ++ dFor) ++ '\n' ::
      ((spL (4 - k) ++ dMak) ++ '\n' :: ((spL (4 - k) ++ dKee) ++ '\n' ::
      ([] : List Char))))))))))) := by
    simp [List.append_assoc]
  rw [hdecomp]
  refine strip_infix_of_decomp _ _ _ 'T' 'R' ?_ (by decide) ?_ (by decide)
  · exact List.mem_cons_of_mem _ (List.mem_append_left _
      (List.mem_append_right _ (by decide)))
  · refine List.mem_cons_of_mem _ (List.mem_append_right _ ?_)
    refine List.mem_cons_of_mem _ (List.mem_cons_of_mem _ ?_)
    exact List.mem_append_left _ (List.mem_append_right _ (by decide))



theorem fstring_contains_none (d ns i' : List Char)
    (hd : '\n' ∉ d) (hns : '\n' ∉ ns) :
    "None".toList <:+:
      pyStripL (dedentL (fstring d ns i' "None".toList)) := by
  obtain ⟨k, mm, hk, hmmne, hmmeq, hT⟩ :=
    dedentL_fstring_shape d ns i' "None".toList hd hns
  have hmid : splitNL (spL 4 ++ dInt ++ i' ++ '\n' :: (spL 4 ++ dGua ++ "None".toList)) =
      splitNL (spL 4 ++ dInt ++ i') ++ [spL 4 ++ dGua ++ "None".toList] := by
    rw [splitNL_append_nl (spL 4 ++ dInt ++ i'),
      splitNL_no_nl (show '\n' ∉ spL 4 ++ dGua ++ "None".toList by decide)]
  have hassoc : spL 4 ++ dGua ++ "None".toList =
      spL 4 ++ (dGua ++ "None".toList) := by
    simp [List.append_assoc]
  have hmm2 : mm = ((splitNL (spL 4 ++ dInt ++ i')).map normWSLine).map
      (removeMargin (spL k)) ++ [spL (4 - k) ++ dGua ++ "None".toList] := by
    rw [hmmeq, hmid]
    simp only [List.map_append, List.map_cons, List.map_nil]
    rw [normWSLine_of_dash (List.mem_append_left _ (List.mem_append_right _ (by decide))),
      hassoc, removeMargin_sp hk]
    simp [List.append_assoc]
  have hqne : ((splitNL (spL 4 ++ dInt ++ i')).map normWSLine).map (removeMargin (spL k)) ≠ [] := by
    intro hcon
    rw [List.map_eq_nil_iff, List.map_eq_nil_iff] at hcon
    exact splitNL_ne_nil _ hcon
  rw [hT, hmm2, joinNL_append hqne (by simp)]
  have hdecomp :
      '\n' :: ((spL (4 - k) ++ dLine1) ++ '\n' :: ((spL (4 - k) ++ dDest ++ d) ++ '\n' ::
      ((spL (4 - k) ++ dNum ++ ns) ++ '\n' ::
      ((joinNL (((splitNL (spL 4 ++ dInt ++ i')).map normWSLine).map (removeMargin (spL k))) ++
        '\n' :: joinNL [spL (4 - k) ++ dGua ++ "None".toList]) ++
        '\n' :: ('\n' ::
      ((spL (4 - k) ++ dReq) ++ '\n' :: ((spL (4 - k) ++ dCre ++ ns ++ dDays) ++ '\n' ::
      ((spL (4 - k) ++ dDiv) ++ '\n' :: ((spL (4 - k) ++ dFor) ++ '\n' ::
      ((spL (4 - k) ++ dMak) ++ '\n' :: ((spL (4 - k) ++ dKee) ++ '\n' ::
      ([] : List Char)))))))))))) =
      ('\n' :: ((spL (4 - k) ++ dLine1) ++ '\n' :: ((spL (4 - k) ++ dDest ++ d) ++ '\n' ::
       ((spL (4 - k) ++ dNum ++ ns) ++ '\n' ::
       (joinNL (((splitNL (spL 4 ++ dInt ++ i')).map normWSLine).map (removeMargin (spL k))) ++
        '\n' :: (spL (4 - k) ++ dGua)))))) ++
      ("None".toList ++ ('\n' :: ('\n' ::
      ((spL (4 - k) ++ dReq) ++ '\n' :: ((spL (4 - k) ++ dCre ++ ns ++ dDays) ++ '\n' ::
      ((spL (4 - k) ++ dDiv) ++ '\n' :: ((spL (4 - k) ++ dFor) ++ '\n' ::
      ((spL (4 - k) ++ dMak) ++ '\n' :: ((spL (4 - k) ++ dKee) ++ '\n' ::
      ([] : List Char)))))))))) := by
    simp [joinNL, List.append_assoc]
  rw [hdecomp]
  refine strip_infix_of_decomp _ _ _ 'T' 'R' ?_ (by decide) ?_ (by decide)
  · exact List.mem_cons_of_mem _ (List.mem_append_left _
      (List.mem_append_right _ (by decide)))
  · refine List.mem_cons_of_mem _ (List.mem_cons_of_mem _ ?_)
    exact List.mem_append_left _ (List.mem_append_right _ (by decide))



theorem toString_int_no_nl {n : Int} (h1 : 1 ≤ n) (h2 : n ≤ 30) :
    '\n' ∉ (toString n).toList := by
  interval_cases n <;> decide

set_option maxRecDepth 100000 in
/-- C6 counterexample: for the destination `"a\n      b"` (a newline followed
by a deeper-indented line), `build_user_prompt` does not contain the
destination verbatim — dedent removes the common four-space margin from the
destination's own second line. -/
theorem build_user_prompt_c6_cex :
    '\n' ∈ ("a\n      b" : String).toList ∧
    ¬ (("a\n      b" : String).toList <:+:
        (build_user_prompt "a\n      b" 3 "" "").toList) := by
  constructor
  · decide
  · decide



/-- C6 (amended): for every destination string containing no newline
character, integer `numDays` in `[1, 30]`, and arbitrary interests and
guardrails strings, `build_user_prompt` returns a deterministic string
containing the destination and `numDays` values verbatim; when interests is
empty the placeholder `"No special interests provided"` appears, and when
guardrails is empty the placeholder `"None"` appears. -/
theorem build_user_prompt_c6_amended (destination : String) (num_days : Int)
    (interests guardrails : String)
    (hd : '\n' ∉ destination.toList) (h1 : 1 ≤ num_days) (h2 : num_days ≤ 30) :
    destination.toList <:+:
      (build_user_prompt destination num_days interests guardrails).toList ∧
    (toString num_days).toList <:+:
      (build_user_prompt destination num_days interests guardrails).toList ∧
    (interests = "" → "No special interests provided".toList <:+:
      (build_user_prompt destination num_days interests guardrails).toList) ∧
    (guardrails = "" → "None".toList <:+:
      (build_user_prompt destination num_days interests guardrails).toList) := by
  have hns : '\n' ∉ (toString num_days).toList := toString_int_no_nl h1 h2
  have hlist : (build_user_prompt destination num_days interests guardrails).toList =
      pyStripL (dedentL (fstring destination.toList (toString num_days).toList
        (orElseStr interests "No special interests provided")
        (orElseStr guardrails "None"))) := rfl
  refine ⟨?_, ?_, ?_, ?_⟩
  · rw [hlist]
    exact fstring_contains_destination _ _ _ _ hd hns
  · rw [hlist]
    exact fstring_contains_numdays _ _ _ _ hd hns
  · intro hi
    rw [hlist]
    have hsub : orElseStr interests "No special interests provided" =
        "No special interests provided".toList := by
      rw [orElseStr, if_pos hi]
    rw [hsub]
    exact fstring_contains_placeholder _ _ _ hd hns
  · intro hg
    rw [hlist]
    have hsub : orElseStr guardrails "None" = "None".toList := by
      rw [orElseStr, if_pos hg]
    rw [hsub]
    exact fstring_contains_none _ _ _ hd hns

/-- Witness for the amended C6 at `("Paris", 3, "", "")`. -/
theorem build_user_prompt_c6_amended_witness :
    "Paris".toList <:+: (build_user_prompt "Paris" 3 "" "").toList ∧
    (toString (3 : Int)).toList <:+: (build_user_prompt "Paris" 3 "" "").toList ∧
    (("" : String) = "" → "No special interests provided".toList <:+:
      (build_user_prompt "Paris" 3 "" "").toList) ∧
    (("" : String) = "" → "None".toList <:+:
      (build_user_prompt "Paris" 3 "" "").toList) :=
  build_user_prompt_c6_amended "Paris" 3 "" "" (by decide) (by decide) (by decide)


end TravelGuide
